import Mathlib

/-!
Shallow embedding of the P2Shell sources (src/lab.c) and proofs about them.

Strings from C are modelled as `List Char` (the bytes up to the terminating
NUL) or as Lean `String`s; a possibly-NULL `char *` is an `Option`.  The
process environment, the file system and the terminal are modelled
abstractly; every `malloc`/`strdup` is assumed to succeed except in
`cmd_parseAlloc`, which threads an explicit allocation oracle.
-/

namespace P2Shell

/-- C `isspace` in the default locale: space, tab, newline, vertical tab,
form feed and carriage return. -/
def isWhite (c : Char) : Bool :=
  c == ' ' || c == '\t' || c == '\n' || c == '\x0b' || c == '\x0c' || c == '\r'

/-- The token stream produced by the `strtok(input, " ")` loop of
`cmd_parse` (src/lab.c lines 106-110): leading and repeated spaces produce
no tokens, and each token is a maximal run of non-space characters.  The
`fuel` argument only makes the recursion structural; `strtokSpaces` below
instantiates it with the length of the list, which always suffices. -/
def strtokFuel : Nat → List Char → List (List Char)
  | _, [] => []
  | 0, _ :: _ => []
  | fuel + 1, c :: cs =>
    if c = ' ' then strtokFuel fuel cs
    else (c :: cs.takeWhile (· ≠ ' ')) :: strtokFuel fuel (cs.dropWhile (· ≠ ' '))

/-- The tokens `strtok(input, " ")` yields on the whole input. -/
def strtokSpaces (l : List Char) : List (List Char) :=
  strtokFuel l.length l

/-- Shallow embedding of `cmd_parse` (src/lab.c lines 76-135) under the
assumption that every allocation succeeds.  `line` is `none` for a NULL
pointer; `amax` is the value `sysconf(_SC_ARG_MAX)` returned at run time.
A returned `none` models a NULL result; the NULL pointer the C code stores
after the last token is modelled by the end of the returned list.  The
checks appear in the order of the source: the token-limit check
(`position >= arg_max - 1`) first, the empty-input check second. -/
def cmd_parse (amax : Int) (line : Option (List Char)) : Option (List (List Char)) :=
  match line with
  | none => none
  | some l =>
    let toks := strtokSpaces l
    if (toks.length : Int) ≥ amax - 1 then none
    else if toks.length = 0 then none
    else some toks

/-- The `args[position++] = strdup(token)` loop of `cmd_parse`:
`oracle k` tells whether the `k`-th allocation of the call succeeds, and a
failed `strdup(token)` is stored, unchecked, as a NULL pointer (`none`). -/
def dupTokens (oracle : Nat → Bool) : Nat → List (List Char) → List (Option (List Char))
  | _, [] => []
  | k, t :: ts => (if oracle k then some t else none) :: dupTokens oracle (k + 1) ts

/-- Shallow embedding of `cmd_parse` together with its allocation
behaviour.  `oracle k` says whether the `k`-th allocation performed by the
call succeeds: allocation 0 is `strdup(line)`, allocation 1 is the `malloc`
of the argument array, and allocation `2 + i` is the `strdup` of the `i`-th
token, which the C code stores without checking.  The result pairs the
returned value (`none` for NULL) with the messages printed to stderr. -/
def cmd_parseAlloc (amax : Int) (oracle : Nat → Bool) (line : Option (List Char)) :
    Option (List (Option (List Char))) × List String :=
  match line with
  | none => (none, ["cmd_parse: Received NULL input"])
  | some l =>
    if oracle 0 = false then (none, ["Memory allocation failed for input."])
    else if oracle 1 = false then (none, ["Memory allocation failed for arguments array."])
    else
      let toks := strtokSpaces l
      let args := dupTokens oracle 2 toks
      if (toks.length : Int) ≥ amax - 1 then (none, ["Too many arguments (limit reached)"])
      else if toks.length = 0 then (none, ["cmd_parse: No args found."])
      else (some args, [])

/-- Shallow embedding of `trim_white` (src/lab.c lines 162-183).  The C
function edits the buffer in place; the returned list is the final contents
of the buffer up to the terminating NUL.  A NULL argument is `none`. -/
def trim_white : Option (List Char) → Option (List Char)
  | none => none
  | some l =>
    let start := l.dropWhile isWhite
    if start = [] then some []
    else some ((start.reverse.dropWhile isWhite).reverse)

/-- The process environment: a map from variable names to values. -/
def Env : Type := String → Option String

/-- Shallow embedding of `get_prompt` (src/lab.c lines 24-35).  `env` is the
argument (`none` for NULL), `e` the process environment consulted by
`getenv`.  The `strdup` calls are assumed to succeed, so the result is
always `some` string; value equality models the freshly allocated copy. -/
def get_prompt (env : Option String) (e : Env) : Option String :=
  match env with
  | none => some "shell>"
  | some name =>
    match e name with
    | some prompt => some prompt
    | none => some "shell>"

/-- The `errno` value `ENOENT` that `chdir` sets for a non-existent path. -/
def ENOENT : Int := 2

/-- Abstract state of the parts of the operating system that `change_dir`
touches: the set of existing directories, the current working directory,
the home directory reported by `getpwuid` (`none` when the lookup fails or
`pw_dir` is NULL), and `errno`. -/
structure Sys where
  dirs : List String
  cwd : String
  home : Option String
  errno : Int

/-- The `chdir` system call on the abstract state: moving to an existing
directory succeeds with result 0; a non-existent path fails with result -1
and sets `errno` to `ENOENT`, leaving the working directory unchanged. -/
def chdir (path : String) (s : Sys) : Int × Sys :=
  if s.dirs.contains path then (0, { s with cwd := path })
  else (-1, { s with errno := ENOENT })

/-- Shallow embedding of `change_dir` (src/lab.c lines 47-63).  `dir` is the
NULL-terminated argument vector, so `dir[1]` is `dir[1]?`.  With no operand
the home directory from `getpwuid` is used; a failed lookup prints to
stderr and returns -1 without calling `chdir`. -/
def change_dir (dir : List String) (s : Sys) : Int × Sys :=
  match dir[1]? with
  | none =>
    match s.home with
    | none => (-1, s)
    | some h => chdir h s
  | some d => chdir d s

/-- The `struct shell` context (declared in lab.h, used throughout
src/lab.c): terminal fd, interactivity flag, process group id and the owned
prompt string (`none` for NULL). -/
structure shell where
  shell_terminal : Int
  shell_is_interactive : Bool
  shell_pgid : Int
  prompt : Option String

/-- The observable events `sh_init` depends on: the result of
`isatty(STDIN_FILENO)`, the shell's pid, whether the `setpgid`, `tcsetpgrp`
and `tcgetattr` calls succeed, and the process environment. -/
structure InitEnv where
  isattyResult : Bool
  pid : Int
  setpgidOk : Bool
  tcsetpgrpOk : Bool
  tcgetattrOk : Bool
  env : Env

/-- Shallow embedding of `sh_init` (src/lab.c lines 250-292).  A result of
`none` models the `exit(1)` paths taken when, in interactive mode,
`setpgid`, `tcsetpgrp` or `tcgetattr` fails; `some sh'` is the state of the
context when the function returns.  Note that the source sets the prompt
with `get_prompt(getenv("MY_PROMPT"))`, passing the value of `MY_PROMPT`
to `get_prompt` as the variable name. -/
def sh_init (o : InitEnv) (sh : shell) : Option shell :=
  let sh1 : shell := { sh with shell_terminal := 0, shell_is_interactive := o.isattyResult }
  if o.isattyResult then
    if o.setpgidOk = false then none
    else if o.tcsetpgrpOk = false then none
    else if o.tcgetattrOk = false then none
    else some { sh1 with shell_pgid := o.pid,
                         prompt := get_prompt (o.env "MY_PROMPT") o.env }
  else some { sh1 with prompt := get_prompt (o.env "MY_PROMPT") o.env }

/-- The option characters `getopt(argc, argv, "v")` scans, in order:
`argv[0]` is skipped, each argument starting with `-` contributes its
remaining characters, the argument `--` or the first non-option argument
ends the scan. -/
def optChars : List String → List Char
  | [] => []
  | a :: rest =>
    match a.data with
    | [] => []
    | c0 :: cs0 =>
      if c0 = '-' then
        match cs0 with
        | [] => []
        | c :: cs =>
          if c = '-' ∧ cs = [] then []
          else (c :: cs) ++ optChars rest
      else []

/-- Shallow embedding of `parse_args` (src/lab.c lines 323-337).  The
version numbers come from lab.h / the build system, so they are
parameters.  A result of `some (status, out, err)` models the process
exiting with `status` after printing `out` to stdout and `err` to stderr;
`none` models `parse_args` returning to its caller. -/
def parse_args (major minor : Nat) (argv : List String) :
    Option (Int × List String × List String) :=
  match optChars argv.tail with
  | [] => none
  | c :: _ =>
    if c = 'v' then some (0, [s!"Shell Version: {major}.{minor}"], [])
    else some (1, [], [s!"Unknown option: -{c}"])

/-! ### Basic facts about the tokenizer -/

/-- Any fuel of at least the length of the list gives the same tokens. -/
lemma strtokFuel_mono : ∀ (f g : Nat) (l : List Char), l.length ≤ f → l.length ≤ g →
    strtokFuel f l = strtokFuel g l := by
  intro f
  induction f with
  | zero =>
    intro g l hf _
    cases l with
    | nil => cases g <;> rfl
    | cons c cs => simp at hf
  | succ f ih =>
    intro g l hf hg
    cases l with
    | nil => cases g <;> rfl
    | cons c cs =>
      cases g with
      | zero => simp at hg
      | succ g =>
        simp only [strtokFuel]
        by_cases hc : c = ' '
        · rw [if_pos hc, if_pos hc,
            ih g cs (by simpa using hf) (by simpa using hg)]
        · rw [if_neg hc, if_neg hc,
            ih g (cs.dropWhile (· ≠ ' '))
              (le_trans (List.dropWhile_sublist _).length_le (by simpa using hf))
              (le_trans (List.dropWhile_sublist _).length_le (by simpa using hg))]

@[simp] lemma strtok_nil : strtokSpaces [] = [] := rfl

lemma strtok_cons_space (cs : List Char) : strtokSpaces (' ' :: cs) = strtokSpaces cs := by
  simp [strtokSpaces, strtokFuel]

lemma strtok_cons (c : Char) (cs : List Char) (hc : c ≠ ' ') :
    strtokSpaces (c :: cs) =
      (c :: cs.takeWhile (· ≠ ' ')) :: strtokSpaces (cs.dropWhile (· ≠ ' ')) := by
  show strtokFuel (cs.length + 1) (c :: cs) = _
  rw [strtokFuel, if_neg hc,
    strtokFuel_mono cs.length (cs.dropWhile (· ≠ ' ')).length (cs.dropWhile (· ≠ ' '))
      ((List.dropWhile_sublist _).length_le) (le_refl _)]
  rfl

/-- The tokenizer yields no tokens exactly on all-space input. -/
lemma strtok_eq_nil_iff (l : List Char) : strtokSpaces l = [] ↔ ∀ c ∈ l, c = ' ' := by
  induction l with
  | nil => simp
  | cons c cs ih =>
    by_cases hc : c = ' '
    · subst hc
      rw [strtok_cons_space]
      simpa using ih
    · rw [strtok_cons c cs hc]
      simp only [List.mem_cons]
      constructor
      · intro h
        exact absurd h (List.cons_ne_nil _ _)
      · intro h
        exact absurd (h c (Or.inl rfl)) hc

/-- The head of a non-empty `dropWhile` result fails the predicate. -/
lemma dropWhile_head_false {α : Type} {p : α → Bool} {l : List α} {d : α} {r : List α}
    (h : l.dropWhile p = d :: r) : p d = false := by
  induction l with
  | nil => simp at h
  | cons a t ih =>
    rw [List.dropWhile_cons] at h
    by_cases hp : p a
    · rw [if_pos hp] at h
      exact ih h
    · rw [if_neg hp] at h
      injection h with h1 _
      subst h1
      exact Bool.eq_false_iff.mpr hp

/-- The `strtok` loop computes exactly the non-empty components of
`splitOn ' '`: the maximal space-separated tokens of the line. -/
lemma strtok_eq_filter_splitOn :
    ∀ (n : Nat) (l : List Char), l.length ≤ n →
      strtokSpaces l = (l.splitOn ' ').filter (fun t => !t.isEmpty) := by
  intro n
  induction n with
  | zero =>
    intro l h
    have hl : l = [] := List.length_eq_zero.mp (Nat.le_zero.mp h)
    subst hl
    simp [List.splitOn]
  | succ n ih =>
    intro l h
    cases l with
    | nil => simp [List.splitOn]
    | cons c cs =>
      by_cases hc : c = ' '
      · subst hc
        rw [strtok_cons_space, ih cs (by simpa using h)]
        simp [List.splitOn, List.splitOnP_cons]
      · rw [strtok_cons c cs hc]
        have hcQ : ¬((c == ' ') = true) := by simpa using hc
        cases hdp : cs.dropWhile (· ≠ ' ') with
        | nil =>
          have htk : cs.takeWhile (· ≠ ' ') = cs := by
            have := List.takeWhile_append_dropWhile (p := (· ≠ ' ')) (l := cs)
            rw [hdp, List.append_nil] at this
            exact this
          have hall : ∀ x ∈ c :: cs, ¬((x == ' ') = true) := by
            intro x hx
            rcases List.mem_cons.mp hx with h1 | h2
            · simpa [h1] using hc
            · have : x ∈ cs.takeWhile (· ≠ ' ') := by rw [htk]; exact h2
              have := List.mem_takeWhile_imp this
              simpa using this
          rw [htk]
          simp only [strtok_nil]
          rw [List.splitOn, List.splitOnP_eq_single _ _ hall]
          simp
        | cons d r =>
          have hd : d = ' ' := by
            have := dropWhile_head_false hdp
            simpa using this
          subst hd
          have hcs : cs = cs.takeWhile (· ≠ ' ') ++ ' ' :: r := by
            conv_lhs => rw [← List.takeWhile_append_dropWhile (p := (· ≠ ' ')) (l := cs)]
            rw [hdp]
          have hall : ∀ x ∈ c :: cs.takeWhile (· ≠ ' '), ¬((x == ' ') = true) := by
            intro x hx
            rcases List.mem_cons.mp hx with h1 | h2
            · simpa [h1] using hc
            · have := List.mem_takeWhile_imp h2
              simpa using this
          have hsplit : (c :: cs).splitOn ' ' =
              (c :: cs.takeWhile (· ≠ ' ')) :: r.splitOn ' ' := by
            rw [List.splitOn]
            have : c :: cs = (c :: cs.takeWhile (· ≠ ' ')) ++ ' ' :: r := by
              rw [List.cons_append, ← hcs]
            rw [this, List.splitOnP_first _ _ hall ' ' (by simp) r]
            rfl
          have hlen : r.length ≤ n := by
            have h1 : (cs.dropWhile (· ≠ ' ')).length ≤ cs.length :=
              (List.dropWhile_sublist _).length_le
            rw [hdp] at h1
            simp only [List.length_cons] at h1 h
            omega
          rw [strtok_cons_space, ih r hlen, hsplit]
          simp

/-! ### Claims about `cmd_parse` -/

/-- C1 (amended): for an input line with at least one non-space character
and fewer than `arg_max - 1` tokens, `cmd_parse` returns, in order, the
maximal space-separated tokens of the line (the non-empty components of
splitting on `' '`, so runs of spaces produce no empty tokens); the NULL
terminator after the last token is the end of the returned list. -/
theorem cmd_parse_tokens (amax : Int) (l : List Char)
    (hne : ∃ c ∈ l, c ≠ ' ')
    (hlen : ((((l.splitOn ' ').filter fun t => !t.isEmpty).length : Nat) : Int) < amax - 1) :
    cmd_parse amax (some l) = some ((l.splitOn ' ').filter fun t => !t.isEmpty) := by
  have hst : strtokSpaces l = (l.splitOn ' ').filter fun t => !t.isEmpty :=
    strtok_eq_filter_splitOn l.length l (le_refl _)
  have hne' : strtokSpaces l ≠ [] := by
    rw [Ne, strtok_eq_nil_iff]
    intro hall
    obtain ⟨c, hc, hcs⟩ := hne
    exact hcs (hall c hc)
  show (if ((strtokSpaces l).length : Int) ≥ amax - 1 then none
        else if (strtokSpaces l).length = 0 then none else some (strtokSpaces l)) = _
  rw [hst] at hne' ⊢
  rw [if_neg (not_le.mpr hlen), if_neg (by simpa using hne')]

/-- C1 witness: a concrete line with two tokens and repeated spaces. -/
theorem cmd_parse_tokens_witness :
    (∃ c ∈ "ls  -a".data, c ≠ ' ') ∧
    (((("ls  -a".data).splitOn ' ').filter fun t => !t.isEmpty) = ["ls".data, "-a".data]) ∧
    cmd_parse 4096 (some "ls  -a".data) = some ["ls".data, "-a".data] := by
  refine ⟨by decide, by decide, ?_⟩
  have h := cmd_parse_tokens 4096 "ls  -a".data (by decide) (by decide)
  rw [h]
  decide

/-- A line of 4095 one-character tokens, each followed by a space. -/
def bigLine : List Char := (List.replicate 4095 ['a', ' ']).flatten

lemma strtok_replicate (n : Nat) :
    strtokSpaces ((List.replicate n ['a', ' ']).flatten) = List.replicate n ['a'] := by
  induction n with
  | zero => simp
  | succ n ih =>
    rw [List.replicate_succ, List.flatten_cons]
    show strtokSpaces ('a' :: ' ' :: (List.replicate n ['a', ' ']).flatten) = _
    rw [strtok_cons 'a' _ (by decide)]
    rw [List.takeWhile_cons_of_neg (by decide), List.dropWhile_cons_of_neg (by decide)]
    rw [strtok_cons_space, ih, List.replicate_succ]

/-- C1 counterexample: with the minimal POSIX value `ARG_MAX = 4096`, a
line of 4095 tokens contains non-space characters, yet `cmd_parse` returns
NULL because of the `position >= arg_max - 1` limit check rather than the
token array the claim promises. -/
theorem cmd_parse_overflow_cex :
    (∃ c ∈ bigLine, c ≠ ' ') ∧ cmd_parse 4096 (some bigLine) = none := by
  constructor
  · refine ⟨'a', ?_, by decide⟩
    exact List.mem_flatten.mpr
      ⟨['a', ' '], List.mem_replicate.mpr ⟨by norm_num, rfl⟩, by decide⟩
  · show (if ((strtokSpaces bigLine).length : Int) ≥ 4096 - 1 then none
          else if (strtokSpaces bigLine).length = 0 then none
          else some (strtokSpaces bigLine)) = none
    rw [bigLine, strtok_replicate, List.length_replicate]
    norm_num

/-- C9: a line that is empty or all spaces makes `cmd_parse` return NULL
(either through the `position == 0` branch or, when `arg_max <= 1`, the
argument-limit branch), never an empty argument array. -/
theorem cmd_parse_blank (amax : Int) (l : List Char) (h : ∀ c ∈ l, c = ' ') :
    cmd_parse amax (some l) = none := by
  have ht : strtokSpaces l = [] := (strtok_eq_nil_iff l).mpr h
  show (if ((strtokSpaces l).length : Int) ≥ amax - 1 then none
        else if (strtokSpaces l).length = 0 then none else some (strtokSpaces l)) = none
  rw [ht]
  simp

/-- C9 witness: the empty line and an all-space line. -/
theorem cmd_parse_blank_witness :
    cmd_parse 4096 (some []) = none ∧ cmd_parse 4096 (some "    ".data) = none :=
  ⟨cmd_parse_blank 4096 [] (by decide), cmd_parse_blank 4096 "    ".data (by decide)⟩

/-- C6: the `strdup` of an individual token inside the `cmd_parse` loop is
not checked.  On the line `"ls"`, when allocation 2 (the copy of the single
token) fails, the function prints nothing to stderr and returns a non-NULL
argument array whose only entry is a NULL pointer, instead of reporting the
failure and returning NULL as the claim states. -/
theorem cmd_parse_alloc_unchecked :
    cmd_parseAlloc 4096 (fun k => decide (k ≠ 2)) (some "ls".data) = (some [none], []) := by
  decide

/-! ### Claims about `trim_white` -/

/-- A list whose head fails the predicate is left whole by `dropWhile`. -/
lemma dropWhile_eq_self_of_head {α : Type} {p : α → Bool} {l : List α}
    (h : ∀ c, l.head? = some c → p c = false) : l.dropWhile p = l := by
  cases l with
  | nil => rfl
  | cons a t =>
    have ha := h a rfl
    rw [List.dropWhile_cons_of_neg (by simp [ha])]

/-- Decomposition of the result of `trim_white` on a non-NULL string: the
output together with the pieces stripped from the two ends, and the fact
that the output neither starts nor ends with whitespace. -/
lemma trim_parts (l : List Char) :
    ∃ t, trim_white (some l) = some t ∧
      (∃ a b, l = a ++ t ++ b ∧ (∀ c ∈ a, isWhite c = true) ∧ (∀ c ∈ b, isWhite c = true)) ∧
      (∀ c, t.head? = some c → isWhite c = false) ∧
      (∀ c, t.getLast? = some c → isWhite c = false) := by
  by_cases hs : l.dropWhile isWhite = []
  · refine ⟨[], by simp [trim_white, hs], ⟨l, [], by simp, ?_, by simp⟩, by simp, by simp⟩
    intro c hc
    exact List.dropWhile_eq_nil_iff.mp hs c hc
  · obtain ⟨s0, s', hscons⟩ := List.exists_cons_of_ne_nil hs
    have hhead : isWhite s0 = false := dropWhile_head_false hscons
    have hune : (l.dropWhile isWhite).reverse.dropWhile isWhite ≠ [] := by
      intro hu
      have : isWhite s0 = true :=
        List.dropWhile_eq_nil_iff.mp hu s0 (by rw [hscons]; simp)
      rw [hhead] at this
      cases this
    obtain ⟨u0, u', hucons⟩ := List.exists_cons_of_ne_nil hune
    have huhead : isWhite u0 = false := dropWhile_head_false hucons
    have hdec : l.dropWhile isWhite =
        ((l.dropWhile isWhite).reverse.dropWhile isWhite).reverse ++
        ((l.dropWhile isWhite).reverse.takeWhile isWhite).reverse := by
      calc l.dropWhile isWhite
          = ((l.dropWhile isWhite).reverse).reverse := (List.reverse_reverse _).symm
        _ = ((l.dropWhile isWhite).reverse.takeWhile isWhite ++
              (l.dropWhile isWhite).reverse.dropWhile isWhite).reverse := by
            rw [List.takeWhile_append_dropWhile]
        _ = _ := by rw [List.reverse_append]
    refine ⟨((l.dropWhile isWhite).reverse.dropWhile isWhite).reverse,
      by simp [trim_white, hs], ?_, ?_, ?_⟩
    · refine ⟨l.takeWhile isWhite,
        ((l.dropWhile isWhite).reverse.takeWhile isWhite).reverse, ?_, ?_, ?_⟩
      · conv_lhs => rw [← List.takeWhile_append_dropWhile (p := isWhite) (l := l), hdec]
        rw [List.append_assoc]
      · intro c hc
        exact List.mem_takeWhile_imp hc
      · intro c hc
        exact List.mem_takeWhile_imp (List.mem_reverse.mp hc)
    · intro c hc
      have hne : ((l.dropWhile isWhite).reverse.dropWhile isWhite).reverse ≠ [] := by
        simpa using hune
      have h1 : (l.dropWhile isWhite).head? = some c := by
        rw [hdec, List.head?_append]
        cases hu : ((l.dropWhile isWhite).reverse.dropWhile isWhite).reverse.head? with
        | none => exact absurd (List.head?_eq_none_iff.mp hu) hne
        | some d =>
          rw [hu] at hc
          injection hc with hc
          subst hc
          rfl
      rw [hscons] at h1
      injection h1 with h1
      subst h1
      exact hhead
    · intro c hc
      rw [List.getLast?_reverse, hucons] at hc
      injection hc with hc
      subst hc
      exact huhead

/-- C2: `trim_white` removes all leading and all trailing whitespace
characters, including tabs and newlines, leaving the interior characters
unchanged (the output is a contiguous segment of the input and only
whitespace is stripped from the two ends), and an all-whitespace string
becomes the empty string. -/
theorem trim_white_spec (l : List Char) :
    ∃ t, trim_white (some l) = some t ∧
      (∃ a b, l = a ++ t ++ b ∧ (∀ c ∈ a, isWhite c = true) ∧ (∀ c ∈ b, isWhite c = true)) ∧
      (∀ c, t.head? = some c → isWhite c = false) ∧
      (∀ c, t.getLast? = some c → isWhite c = false) ∧
      ((∀ c ∈ l, isWhite c = true) → t = []) := by
  obtain ⟨t, ht, hdec, hh, hl⟩ := trim_parts l
  refine ⟨t, ht, hdec, hh, hl, ?_⟩
  intro hall
  have : l.dropWhile isWhite = [] := List.dropWhile_eq_nil_iff.mpr hall
  have h2 : trim_white (some l) = some [] := by simp [trim_white, this]
  exact Option.some.inj (ht.symm.trans h2)

/-- C2 witness: the tab/newline example from the repository's tests. -/
theorem trim_white_spec_witness :
    (∃ t, trim_white (some "\t\n  ls -a \n\t".data) = some t ∧
      (∃ a b, "\t\n  ls -a \n\t".data = a ++ t ++ b ∧
        (∀ c ∈ a, isWhite c = true) ∧ (∀ c ∈ b, isWhite c = true)) ∧
      (∀ c, t.head? = some c → isWhite c = false) ∧
      (∀ c, t.getLast? = some c → isWhite c = false) ∧
      ((∀ c ∈ "\t\n  ls -a \n\t".data, isWhite c = true) → t = [])) ∧
    trim_white (some "\t\n  ls -a \n\t".data) = some "ls -a".data :=
  ⟨trim_white_spec ("\t\n  ls -a \n\t".data), by decide⟩

/-- C10: `trim_white` is idempotent; a second application (also through the
NULL case) leaves the result of the first application unchanged. -/
theorem trim_white_idem (l? : Option (List Char)) :
    trim_white (trim_white l?) = trim_white l? := by
  cases l? with
  | none => rfl
  | some l =>
    obtain ⟨t, ht, _, hh, hl⟩ := trim_parts l
    rw [ht]
    cases hte : t with
    | nil => rfl
    | cons t0 t' =>
      rw [← hte]
      have h1 : t.dropWhile isWhite = t := dropWhile_eq_self_of_head hh
      have h2 : t.reverse.dropWhile isWhite = t.reverse :=
        dropWhile_eq_self_of_head (by simpa using hl)
      have h3 : t ≠ [] := by simp [hte]
      show trim_white (some t) = some t
      simp only [trim_white, h1, h2, List.reverse_reverse, if_neg h3]

/-! ### Claims about `get_prompt`, `sh_init`, `change_dir` and `parse_args` -/

/-- C5: `get_prompt` returns the value of the requested environment
variable when it is set, and the default prompt `"shell>"` when the
argument is NULL or the variable is unset.  (The `strdup` making the
returned string a fresh copy is modelled by value equality.) -/
theorem get_prompt_spec :
    (∀ e : Env, get_prompt none e = some "shell>") ∧
    (∀ (name : String) (e : Env) (v : String), e name = some v →
        get_prompt (some name) e = some v) ∧
    (∀ (name : String) (e : Env), e name = none →
        get_prompt (some name) e = some "shell>") := by
  refine ⟨fun e => rfl, ?_, ?_⟩
  · intro name e v hv
    simp [get_prompt, hv]
  · intro name e hv
    simp [get_prompt, hv]

/-- C5 witness: the three cases at concrete environments. -/
theorem get_prompt_spec_witness :
    get_prompt none (fun _ => none) = some "shell>" ∧
    get_prompt (some "MY_PROMPT")
      (fun n => if n = "MY_PROMPT" then some "foo>" else none) = some "foo>" ∧
    get_prompt (some "MY_PROMPT") (fun _ => none) = some "shell>" :=
  ⟨get_prompt_spec.1 (fun _ => none),
   get_prompt_spec.2.1 "MY_PROMPT" (fun n => if n = "MY_PROMPT" then some "foo>" else none)
     "foo>" (by decide),
   get_prompt_spec.2.2 "MY_PROMPT" (fun _ => none) rfl⟩

/-- C3: `sh_init` passes `getenv("MY_PROMPT")` — the value of `MY_PROMPT` —
to `get_prompt` as the name of the variable to look up.  In an environment
where `MY_PROMPT` is set to `"hello>"` and no variable named `"hello>"`
exists, the resulting prompt is the default `"shell>"`, not the value
`"hello>"` of `MY_PROMPT` as the claim states. -/
theorem sh_init_prompt_bug :
    (fun n => if n = "MY_PROMPT" then some "hello>" else none : Env) "MY_PROMPT"
        = some "hello>" ∧
    sh_init
      { isattyResult := false, pid := 1, setpgidOk := true, tcsetpgrpOk := true,
        tcgetattrOk := true,
        env := fun n => if n = "MY_PROMPT" then some "hello>" else none }
      { shell_terminal := 0, shell_is_interactive := false, shell_pgid := 0, prompt := none }
      = some { shell_terminal := 0, shell_is_interactive := false, shell_pgid := 0,
               prompt := some "shell>" } ∧
    ("shell>" : String) ≠ "hello>" := by
  refine ⟨by decide, ?_, by decide⟩
  rfl

/-- The prompt `get_prompt` produces is never NULL (given that allocation
succeeds, which the embedding assumes). -/
lemma get_prompt_isSome (env : Option String) (e : Env) : (get_prompt env e).isSome = true := by
  cases env with
  | none => rfl
  | some name =>
    cases h : e name with
    | none => simp [get_prompt, h]
    | some v => simp [get_prompt, h]

/-- Whenever `sh_init` returns, the prompt field of the resulting context
is exactly what `get_prompt(getenv("MY_PROMPT"))` produced. -/
lemma sh_init_prompt_eq (o : InitEnv) (sh sh' : shell) (h : sh_init o sh = some sh') :
    sh'.prompt = get_prompt (o.env "MY_PROMPT") o.env := by
  simp only [sh_init] at h
  by_cases hi : o.isattyResult
  · rw [if_pos hi] at h
    by_cases h1 : o.setpgidOk = false
    · rw [if_pos h1] at h
      exact absurd h (by simp)
    · rw [if_neg h1] at h
      by_cases h2 : o.tcsetpgrpOk = false
      · rw [if_pos h2] at h
        exact absurd h (by simp)
      · rw [if_neg h2] at h
        by_cases h3 : o.tcgetattrOk = false
        · rw [if_pos h3] at h
          exact absurd h (by simp)
        · rw [if_neg h3] at h
          injection h with h
          rw [← h]
  · rw [if_neg hi] at h
    injection h with h
    rw [← h]

/-- C8: on every path on which `sh_init` returns (interactive or not; the
failing interactive paths call `exit(1)` and do not return), the prompt
field of the shell context is non-null. -/
theorem sh_init_prompt_isSome (o : InitEnv) (sh sh' : shell)
    (h : sh_init o sh = some sh') : sh'.prompt.isSome = true := by
  rw [sh_init_prompt_eq o sh sh' h]
  exact get_prompt_isSome _ _

/-- C8 witness: a non-interactive initialization with an empty environment. -/
theorem sh_init_prompt_isSome_witness :
    ({ shell_terminal := 0, shell_is_interactive := false, shell_pgid := 7,
       prompt := some "shell>" } : shell).prompt.isSome = true :=
  sh_init_prompt_isSome
    { isattyResult := false, pid := 1, setpgidOk := true, tcsetpgrpOk := true,
      tcgetattrOk := true, env := fun _ => none }
    { shell_terminal := 0, shell_is_interactive := false, shell_pgid := 7, prompt := none }
    _ rfl

/-- C4: `change_dir` with no directory operand changes to the home
directory reported by `getpwuid`; with an operand it changes to that path;
and for a non-existent path it returns -1, sets `errno` to the underlying
system error code `ENOENT`, and leaves the working directory unchanged. -/
theorem change_dir_spec (argv : List String) (s : Sys) :
    (∀ h : String, argv[1]? = none → s.home = some h → s.dirs.contains h = true →
        change_dir argv s = (0, { s with cwd := h })) ∧
    (∀ d : String, argv[1]? = some d → s.dirs.contains d = true →
        change_dir argv s = (0, { s with cwd := d })) ∧
    (∀ d : String, argv[1]? = some d → s.dirs.contains d = false →
        change_dir argv s = (-1, { s with errno := ENOENT })) := by
  refine ⟨?_, ?_, ?_⟩
  · intro h h1 h2 h3
    have h3' : h ∈ s.dirs := by simpa using h3
    simp [change_dir, h1, h2, chdir, h3']
  · intro d h1 h2
    have h2' : d ∈ s.dirs := by simpa using h2
    simp [change_dir, h1, chdir, h2']
  · intro d h1 h2
    have h2' : d ∉ s.dirs := by simpa using h2
    simp [change_dir, h1, chdir, h2']

/-- C4 witness: the three cases on a concrete abstract file system. -/
theorem change_dir_spec_witness :
    change_dir ["cd"]
      { dirs := ["/", "/home/u"], cwd := "/", home := some "/home/u", errno := 0 }
      = (0, { dirs := ["/", "/home/u"], cwd := "/home/u", home := some "/home/u", errno := 0 }) ∧
    change_dir ["cd", "/"]
      { dirs := ["/", "/home/u"], cwd := "/home/u", home := some "/home/u", errno := 0 }
      = (0, { dirs := ["/", "/home/u"], cwd := "/", home := some "/home/u", errno := 0 }) ∧
    change_dir ["cd", "/thisdoesnotexist"]
      { dirs := ["/", "/home/u"], cwd := "/", home := some "/home/u", errno := 0 }
      = (-1, { dirs := ["/", "/home/u"], cwd := "/", home := some "/home/u", errno := ENOENT }) :=
  ⟨(change_dir_spec ["cd"] _).1 "/home/u" rfl rfl (by decide),
   (change_dir_spec ["cd", "/"] _).2.1 "/" rfl (by decide),
   (change_dir_spec ["cd", "/thisdoesnotexist"] _).2.2 "/thisdoesnotexist" rfl (by decide)⟩

/-- C7: launching the shell with `-v` makes `parse_args` print the version
string and exit with status 0, and launching it with an unknown option flag
`-c` (any `c` other than `v`; `--` is the option terminator, not a flag)
makes the process exit with status 1. -/
theorem parse_args_spec (major minor : Nat) (prog a : String) (rest : List String) :
    (a = "-v" → parse_args major minor (prog :: a :: rest) =
        some (0, [s!"Shell Version: {major}.{minor}"], [])) ∧
    (∀ c : Char, a = String.mk ['-', c] → c ≠ 'v' → c ≠ '-' →
        parse_args major minor (prog :: a :: rest) =
          some (1, [], [s!"Unknown option: -{c}"])) := by
  constructor
  · intro ha
    subst ha
    simp [parse_args, optChars]
  · intro c ha hv hd
    subst ha
    have hdata : (String.mk ['-', c]).data = ['-', c] := rfl
    simp only [parse_args, List.tail_cons, optChars, hdata]
    simp [hd, hv]

/-- C7 witness: `-v` exits 0 with the version line; `-x` exits 1. -/
theorem parse_args_spec_witness :
    parse_args 1 0 ["shell", "-v"] = some (0, ["Shell Version: 1.0"], []) ∧
    parse_args 1 0 ["shell", "-x"] = some (1, [], ["Unknown option: -x"]) := by
  constructor
  · exact ((parse_args_spec 1 0 "shell" "-v" []).1 rfl).trans (by decide)
  · exact ((parse_args_spec 1 0 "shell" "-x" []).2 'x' (by decide) (by decide)
      (by decide)).trans (by decide)

end P2Shell
